import Mathlib

/-!
Verification of the result-interpretation pipeline of `fish-whisperer`
(`src/components/FishIdentifier.tsx`).

The computational core is embedded shallowly:

* JavaScript strings are Lean `String`s; character-level operations
  (`toLowerCase`, `includes`, `split(' ')`) are modelled on `List Char`.
  `Char.toLower` matches JS `toLowerCase` on the basic-latin range, which
  covers every keyword the code tests.
* JS numbers (classification scores) are modelled as `ℚ`; the code only
  compares scores against the literals 0.7 and 0.4, and every comparison
  the claims mention is exact at the values involved.
* The React component state (`image`, `isLoading`, `results`) is an
  explicit record; `toast.*` calls and classifier invocation are modelled
  as an emitted effect list, and the asynchronous classifier call as an
  `Except`-valued input to the step function.
* JS expressions that can produce `undefined` (array indexing in
  `extractSpecies` / `extractGenus`) have an `Option`-valued embedding
  (`extractSpeciesE`, `extractGenusE`, `interpretResultsE`) used to prove
  the interpreter total.
-/

namespace FishWhisperer

/-- One raw classifier output: `{ label: string, score: number }`. -/
structure ClassificationEntry where
  label : String
  score : ℚ
deriving DecidableEq, Repr

/-- `IdentificationResult` from `FishIdentifier.tsx` lines 12–18: optional
fields are `Option`-valued. -/
structure IdentificationResult where
  label : String
  score : ℚ
  species : Option String
  genus : Option String
  commonName : Option String
deriving DecidableEq, Repr

/-- JS `s.toLowerCase()` (character-wise lowering; ASCII-faithful). -/
def toLowerCase (s : String) : String :=
  ⟨s.toList.map Char.toLower⟩

/-- JS `s.includes(pat)`: substring containment. -/
def includes (s pat : String) : Bool :=
  decide (pat.toList <:+: s.toList)

/-- JS `str.split(sep)` for a single-character separator, on character
lists: consecutive separators yield empty segments, `"".split(sep)` is
`[""]`, and the result is never empty. -/
def splitOnChar (sep : Char) : List Char → List (List Char)
  | [] => [[]]
  | c :: cs =>
    match splitOnChar sep cs with
    | [] => [[c]]
    | t :: ts => if c = sep then [] :: t :: ts else (c :: t) :: ts

/-- `extractSpecies` (lines 107–111): `label.split(' ')`, then
`words.length >= 2 ? words[0] + " " + words[1] : label`. -/
def extractSpecies (label : String) : String :=
  match splitOnChar ' ' label.toList with
  | w0 :: w1 :: _ => ⟨w0 ++ ' ' :: w1⟩
  | _ => label

/-- `extractGenus` (lines 113–116): `label.split(' ')[0]`. The `[]` branch
is unreachable (`splitOnChar` never returns `[]`); it models the JS
`undefined` as `""` and `extractGenusE` below captures the partiality
honestly. -/
def extractGenus (label : String) : String :=
  match splitOnChar ' ' label.toList with
  | w0 :: _ => ⟨w0⟩
  | [] => ""

/-- The fish-relevance test (lines 74–83): lower-case the label, then an
OR-chain of `includes` over the nine literal keywords. -/
def isFishRelated (label : String) : Bool :=
  let l := toLowerCase label
  includes l "fish" || includes l "salmon" || includes l "tuna" ||
  includes l "bass" || includes l "shark" || includes l "trout" ||
  includes l "cod" || includes l "marine" || includes l "aquatic"

/-- The body of the `map` in `identifyFish` (lines 73–92): one entry to
one record. -/
def processEntry (e : ClassificationEntry) : IdentificationResult :=
  let isFR := isFishRelated e.label
  { label := e.label
    score := e.score
    species := if isFR then some (extractSpecies e.label) else none
    genus := if isFR then some (extractGenus e.label) else none
    commonName := if isFR then some e.label else none }

/-- `result.slice(0, topK).map(processEntry)`. The code calls this with
`topK = 5` (the spec's default); the bound is the sole parameter the
spec's `FishResultInterpreter` interface adds. -/
def interpretResults (topK : Nat) (result : List ClassificationEntry) :
    List IdentificationResult :=
  (result.take topK).map processEntry

/-- The interpreter exactly as the component runs it: `result.slice(0, 5)
.map(...)` (line 73). -/
def identifyFishResults (result : List ClassificationEntry) :
    List IdentificationResult :=
  interpretResults 5 result

/-- `processedResults.every(r => !r.species)` (line 96). JS `!s` is true
for `undefined` and for the empty string, so the embedding tests both. -/
def noFishDetected (rs : List IdentificationResult) : Bool :=
  rs.all fun r =>
    match r.species with
    | none => true
    | some s => s == ""

/-- Confidence-tier badge classes (lines 235–241). -/
inductive Tier where
  | high
  | medium
  | low
deriving DecidableEq, Repr

/-- `result.score > 0.7 ? high : result.score > 0.4 ? medium : low`. -/
def badgeTier (score : ℚ) : Tier :=
  if score > 7/10 then Tier.high
  else if score > 2/5 then Tier.medium
  else Tier.low

/-- Observable side effects of the component: toast notifications and
invocation of the classifier capability. -/
inductive Effect where
  | toastError (msg : String)
  | toastInfo (msg : String)
  | classifierInvoked
deriving DecidableEq, Repr

/-- Whether an effect is an error notification (`toast.error`). -/
def isErrorToast : Effect → Bool
  | Effect.toastError _ => true
  | _ => false

/-- The component state the claims mention: `image`, `isLoading`,
`results` (lines 21–23). -/
structure ComponentState where
  image : Option String
  isLoading : Bool
  results : List IdentificationResult
deriving DecidableEq, Repr

/-- JS `s.startsWith(pre)`. -/
def startsWith (s pre : String) : Bool :=
  decide (pre.toList <+: s.toList)

/-- `handleImageUpload` (lines 27–39): reject non-`image/*` MIME types
with a toast before anything else; otherwise store the decoded image and
clear the results (the `FileReader.onload` continuation). -/
def handleImageUpload (fileType fileContent : String) (st : ComponentState) :
    ComponentState × List Effect :=
  if !(startsWith fileType "image/") then
    (st, [Effect.toastError "Please upload a valid image file"])
  else
    ({ st with image := some fileContent, results := [] }, [])

/-- `identifyFish` (lines 57–105) as a step function. `classify` is the
combined outcome of `pipeline(...)` and `classifier(image)`; a failure of
either lands in the `catch` block. The `finally` clears `isLoading` on
every path that entered the `try`. -/
def identifyFish (classify : Except Unit (List ClassificationEntry))
    (st : ComponentState) : ComponentState × List Effect :=
  match st.image with
  | none => (st, [])
  | some _ =>
    match classify with
    | Except.error _ =>
      ({ st with isLoading := false },
        [Effect.classifierInvoked,
         Effect.toastError "Failed to identify fish. Please try again."])
    | Except.ok result =>
      let processedResults := identifyFishResults result
      ({ st with results := processedResults, isLoading := false },
        Effect.classifierInvoked ::
          (if noFishDetected processedResults then
            [Effect.toastInfo
              "This might not be a fish image. The AI couldn't detect any fish species."]
          else []))

/-- Forgetting the derived fields of a record gives back a classifier
entry (used to feed the interpreter its own output). -/
def recordToEntry (r : IdentificationResult) : ClassificationEntry :=
  ⟨r.label, r.score⟩

/-! ### Option-valued embedding capturing the partiality of JS indexing -/

/-- `extractSpecies` with `words[0]` / `words[1]` as partial operations:
`none` would be a JS `undefined` leaking into the template string. -/
def extractSpeciesE (label : String) : Option String :=
  let words := splitOnChar ' ' label.toList
  if words.length ≥ 2 then
    match words[0]?, words[1]? with
    | some w0, some w1 => some ⟨w0 ++ ' ' :: w1⟩
    | _, _ => none
  else
    some label

/-- `extractGenus` with `split(' ')[0]` as a partial operation. -/
def extractGenusE (label : String) : Option String :=
  (splitOnChar ' ' label.toList)[0]?.map fun w => (⟨w⟩ : String)

/-- `processEntry` built from the partial extractors. -/
def processEntryE (e : ClassificationEntry) : Option IdentificationResult :=
  if isFishRelated e.label then
    match extractSpeciesE e.label, extractGenusE e.label with
    | some sp, some g =>
      some { label := e.label, score := e.score, species := some sp,
             genus := some g, commonName := some e.label }
    | _, _ => none
  else
    some { label := e.label, score := e.score, species := none,
           genus := none, commonName := none }

/-- The interpreter over the partial per-entry transform. -/
def interpretResultsE (topK : Nat) (result : List ClassificationEntry) :
    Option (List IdentificationResult) :=
  (result.take topK).mapM processEntryE

/-! ### Spec-side definitions (from the spec's wording, for comparison) -/

/-- The spec's fixed keyword set. -/
def fishKeywords : List String :=
  ["fish", "salmon", "tuna", "bass", "shark", "trout", "cod", "marine", "aquatic"]

/-- The spec's fish-relevance predicate: the lower-cased label contains
some keyword as a plain substring. -/
def specFishRelevant (label : String) : Prop :=
  ∃ kw ∈ fishKeywords, kw.toList <:+: (toLowerCase label).toList

/-- Splitting a character list at every character satisfying `p`
(generalises `splitOnChar` to a predicate). -/
def splitOnPred (p : Char → Bool) : List Char → List (List Char)
  | [] => [[]]
  | c :: cs =>
    match splitOnPred p cs with
    | [] => [[c]]
    | t :: ts => if p c then [] :: t :: ts else (c :: t) :: ts

/-- The spec's whitespace-delimited tokens of a label: split at every
whitespace character and drop empty segments. -/
def whitespaceTokens (label : String) : List String :=
  ((splitOnPred Char.isWhitespace label.toList).filter fun w => w ≠ []).map
    fun w => (⟨w⟩ : String)

/-- The spec's "first whitespace-delimited token" of a label. -/
def firstWhitespaceToken (label : String) : String :=
  (whitespaceTokens label).headI

/-! ### Helper lemmas -/

theorem splitOnChar_ne_nil (sep : Char) (l : List Char) :
    splitOnChar sep l ≠ [] := by
  cases l with
  | nil => simp [splitOnChar]
  | cons c cs =>
    simp only [splitOnChar]
    cases splitOnChar sep cs with
    | nil => simp
    | cons t ts =>
      by_cases hc : c = sep <;> simp [hc]

theorem includes_iff (s pat : String) :
    includes s pat = true ↔ pat.toList <:+: s.toList := by
  simp [includes]

theorem isFishRelated_iff (label : String) :
    isFishRelated label = true ↔ specFishRelevant label := by
  simp only [isFishRelated, specFishRelevant, fishKeywords, Bool.or_eq_true,
    includes_iff, List.mem_cons, List.not_mem_nil, or_false,
    exists_eq_or_imp, exists_eq_left]
  tauto

theorem mem_identifyFishResults {result : List ClassificationEntry}
    {r : IdentificationResult} (h : r ∈ identifyFishResults result) :
    ∃ e ∈ result.take 5, r = processEntry e := by
  simp only [identifyFishResults, interpretResults, List.mem_map] at h
  obtain ⟨e, he, rfl⟩ := h
  exact ⟨e, he, rfl⟩

theorem isFishRelated_ne_empty {label : String}
    (h : isFishRelated label = true) : label ≠ "" := by
  rintro rfl
  simp [isFishRelated, includes, toLowerCase] at h

theorem splitOnChar_headI (sep : Char) (l : List Char) :
    (splitOnChar sep l).headI = l.takeWhile fun c => c != sep := by
  induction l with
  | nil => rfl
  | cons c cs ih =>
    cases hw : splitOnChar sep cs with
    | nil => exact absurd hw (splitOnChar_ne_nil _ _)
    | cons t ts =>
      rw [hw] at ih
      simp only [List.headI] at ih
      by_cases hc : c = sep
      · subst hc
        simp [splitOnChar, hw, List.takeWhile_cons, bne_self_eq_false]
      · have hbc : (c != sep) = true := by simp [bne_iff_ne, hc]
        simp [splitOnChar, hw, hc, List.takeWhile_cons, hbc, ih]

theorem splitOnChar_of_not_mem (sep : Char) {l : List Char}
    (h : sep ∉ l) : splitOnChar sep l = [l] := by
  induction l with
  | nil => rfl
  | cons c cs ih =>
    simp only [List.mem_cons, not_or] at h
    obtain ⟨h1, h2⟩ := h
    have hc : ¬ c = sep := fun hcc => h1 hcc.symm
    simp [splitOnChar, ih h2, hc]

theorem splitOnChar_of_mem (sep : Char) {l : List Char} (h : sep ∈ l) :
    splitOnChar sep l = (l.takeWhile fun c => c != sep) ::
      splitOnChar sep ((l.dropWhile fun c => c != sep).tail) := by
  induction l with
  | nil => cases h
  | cons c cs ih =>
    by_cases hc : c = sep
    · subst hc
      cases hw : splitOnChar c cs with
      | nil => exact absurd hw (splitOnChar_ne_nil _ _)
      | cons t ts =>
        simp [splitOnChar, hw, List.takeWhile_cons, List.dropWhile_cons,
          bne_self_eq_false]
    · have hcs : sep ∈ cs := by
        rcases List.mem_cons.mp h with heq | hcs
        · exact absurd heq.symm hc
        · exact hcs
      have hbc : (c != sep) = true := by simp [bne_iff_ne, hc]
      simp [splitOnChar, ih hcs, hc, List.takeWhile_cons,
        List.dropWhile_cons, hbc]

theorem extractGenus_eq_headI (label : String) :
    extractGenus label = ⟨(splitOnChar ' ' label.toList).headI⟩ := by
  unfold extractGenus
  cases hw : splitOnChar ' ' label.toList with
  | nil => rfl
  | cons w0 ws => rfl

theorem extractSpecies_ne_empty {label : String} (h : label ≠ "") :
    extractSpecies label ≠ "" := by
  unfold extractSpecies
  cases hw : splitOnChar ' ' label.toList with
  | nil => exact h
  | cons w0 ws =>
    cases ws with
    | nil => exact h
    | cons w1 ws2 =>
      intro hs
      have hdata := congrArg String.data hs
      simp at hdata

theorem processEntry_species_ne_empty {e : ClassificationEntry} {s : String}
    (h : (processEntry e).species = some s) : s ≠ "" := by
  simp only [processEntry] at h
  by_cases hfr : isFishRelated e.label
  · rw [if_pos hfr] at h
    obtain rfl : extractSpecies e.label = s := by simpa using h
    exact extractSpecies_ne_empty (isFishRelated_ne_empty hfr)
  · rw [if_neg hfr] at h
    cases h

/-! ### Claim theorems -/

/-- C1: an entry processed by the interpreter is judged fish-relevant iff
its lower-cased label contains one of the nine keywords as a plain
substring (so a label `"catfishery"` matches `"fish"`), and `species`,
`genus`, `commonName` are present in the output record iff the entry is
judged fish-relevant. -/
theorem claim1_fish_relevance (result : List ClassificationEntry)
    (r : IdentificationResult) (h : r ∈ identifyFishResults result) :
    (isFishRelated r.label = true ↔ specFishRelevant r.label) ∧
    (r.species.isSome = isFishRelated r.label) ∧
    (r.genus.isSome = isFishRelated r.label) ∧
    (r.commonName.isSome = isFishRelated r.label) ∧
    isFishRelated "catfishery" = true := by
  obtain ⟨e, he, rfl⟩ := mem_identifyFishResults h
  refine ⟨isFishRelated_iff _, ?_, ?_, ?_, by decide⟩ <;>
    · simp only [processEntry]
      cases hfr : isFishRelated e.label <;> simp [hfr]

/-- Witness for C1 at a concrete run on the label `"catfishery"`. -/
theorem claim1_fish_relevance_witness :
    (⟨"catfishery", 1, some "catfishery", some "catfishery",
       some "catfishery"⟩ : IdentificationResult) ∈
      identifyFishResults [⟨"catfishery", 1⟩] ∧
    (isFishRelated
        (⟨"catfishery", 1, some "catfishery", some "catfishery",
          some "catfishery"⟩ : IdentificationResult).label = true ↔
      specFishRelevant
        (⟨"catfishery", 1, some "catfishery", some "catfishery",
          some "catfishery"⟩ : IdentificationResult).label) :=
  ⟨by decide, (claim1_fish_relevance [⟨"catfishery", 1⟩] _ (by decide)).1⟩

/-- C5: the "no fish detected" signal holds iff every output record's
`species` is absent; the empty input gives an empty output and the
signal holds. -/
theorem claim5_no_fish_signal (result : List ClassificationEntry) :
    (noFishDetected (identifyFishResults result) = true ↔
      ∀ r ∈ identifyFishResults result, r.species = none) ∧
    identifyFishResults [] = [] ∧
    noFishDetected (identifyFishResults []) = true := by
  refine ⟨?_, rfl, rfl⟩
  simp only [noFishDetected, List.all_eq_true]
  constructor
  · intro hall r hr
    have hthis := hall r hr
    cases hs : r.species with
    | none => rfl
    | some s =>
      rw [hs] at hthis
      obtain ⟨e, he, rfl⟩ := mem_identifyFishResults hr
      exact absurd (by simpa using hthis) (processEntry_species_ne_empty hs)
  · intro hnone r hr
    rw [hnone r hr]

theorem extractSpeciesE_eq (label : String) :
    extractSpeciesE label = some (extractSpecies label) := by
  unfold extractSpeciesE extractSpecies
  cases hw : splitOnChar ' ' label.toList with
  | nil => simp
  | cons w0 ws =>
    cases ws with
    | nil => simp
    | cons w1 ws2 => simp

theorem extractGenusE_eq (label : String) :
    extractGenusE label = some (extractGenus label) := by
  unfold extractGenusE extractGenus
  cases hw : splitOnChar ' ' label.toList with
  | nil => exact absurd hw (splitOnChar_ne_nil _ _)
  | cons w0 ws => simp

theorem processEntryE_eq (e : ClassificationEntry) :
    processEntryE e = some (processEntry e) := by
  unfold processEntryE processEntry
  cases hfr : isFishRelated e.label <;>
    simp [hfr, extractSpeciesE_eq, extractGenusE_eq]

theorem mapM_processEntryE (l : List ClassificationEntry) :
    l.mapM processEntryE = some (l.map processEntry) := by
  induction l with
  | nil => rfl
  | cons e es ih => rw [List.mapM_cons, processEntryE_eq, ih]; rfl

/-- C6: the interpreter is a total pure function — under the
`Option`-valued embedding, in which every JS expression that could be
`undefined` (array indexing in the extractors) is partial, every input
sequence (the empty one and single-token labels included) produces
`some` result, equal to the total interpreter's output; in particular no
exception, `undefined` leak, or divergence arises from the interpreter
itself. -/
theorem claim6_interpreter_total (topK : Nat)
    (result : List ClassificationEntry) (label : String) :
    interpretResultsE topK result = some (interpretResults topK result) ∧
    extractSpeciesE label = some (extractSpecies label) ∧
    extractGenusE label = some (extractGenus label) := by
  refine ⟨?_, extractSpeciesE_eq label, extractGenusE_eq label⟩
  unfold interpretResultsE interpretResults
  exact mapM_processEntryE _

/-- C3: the output has the same length as the truncated input, and the
record at index `i` carries the label and score of the input entry at
index `i` unchanged. -/
theorem claim3_order_preserved (result : List ClassificationEntry)
    (i : Nat) (h : i < (identifyFishResults result).length) :
    (identifyFishResults result).length = (result.take 5).length ∧
    (identifyFishResults result)[i]?.map IdentificationResult.label =
      result[i]?.map ClassificationEntry.label ∧
    (identifyFishResults result)[i]?.map IdentificationResult.score =
      result[i]?.map ClassificationEntry.score := by
  have hlen : (identifyFishResults result).length = min 5 result.length := by
    simp [identifyFishResults, interpretResults]
  have h5 : i < (result.take 5).length := by
    simp only [List.length_take]
    omega
  have hi : i < result.length := by omega
  refine ⟨by simp [identifyFishResults, interpretResults], ?_, ?_⟩ <;>
  · rw [List.getElem?_eq_getElem h, List.getElem?_eq_getElem hi]
    simp [identifyFishResults, interpretResults, processEntry]

/-- Witness for C3 at a concrete two-entry input, index 1. -/
theorem claim3_order_preserved_witness :
    1 < (identifyFishResults
        [⟨"tiger shark", 1⟩, ⟨"umbrella", 0⟩]).length ∧
    ((identifyFishResults [⟨"tiger shark", 1⟩, ⟨"umbrella", 0⟩]).length =
        (([⟨"tiger shark", 1⟩, ⟨"umbrella", 0⟩] :
          List ClassificationEntry).take 5).length ∧
      (identifyFishResults
          [⟨"tiger shark", 1⟩, ⟨"umbrella", 0⟩])[1]?.map
          IdentificationResult.label =
        ([⟨"tiger shark", 1⟩, ⟨"umbrella", 0⟩] :
          List ClassificationEntry)[1]?.map ClassificationEntry.label ∧
      (identifyFishResults
          [⟨"tiger shark", 1⟩, ⟨"umbrella", 0⟩])[1]?.map
          IdentificationResult.score =
        ([⟨"tiger shark", 1⟩, ⟨"umbrella", 0⟩] :
          List ClassificationEntry)[1]?.map ClassificationEntry.score) :=
  ⟨by decide,
    claim3_order_preserved [⟨"tiger shark", 1⟩, ⟨"umbrella", 0⟩] 1 (by decide)⟩

/-- C4: the interpreter truncates to the first `topK` entries before any
other processing — the output length is `min n k`, the output depends
only on the first `k` entries, and the component runs the interpreter
with `topK = 5`. -/
theorem claim4_truncation (k : Nat) (result other : List ClassificationEntry)
    (h : result.take k = other.take k) :
    (interpretResults k result).length = min result.length k ∧
    interpretResults k result = interpretResults k other ∧
    identifyFishResults result = interpretResults 5 result := by
  refine ⟨?_, ?_, rfl⟩
  · simp [interpretResults, Nat.min_comm]
  · simp [interpretResults, h]

/-- Witness for C4: `topK = 2` with five input entries gives two output
records, derived from the first two entries only. -/
theorem claim4_truncation_witness :
    ([⟨"tiger shark", 1⟩, ⟨"salmon", 1⟩, ⟨"umbrella", 0⟩,
        ⟨"beach towel", 0⟩, ⟨"trout", 1⟩] :
          List ClassificationEntry).take 2 =
      ([⟨"tiger shark", 1⟩, ⟨"salmon", 1⟩] :
          List ClassificationEntry).take 2 ∧
    ((interpretResults 2
          [⟨"tiger shark", 1⟩, ⟨"salmon", 1⟩, ⟨"umbrella", 0⟩,
            ⟨"beach towel", 0⟩, ⟨"trout", 1⟩]).length =
        min 5 2 ∧
      interpretResults 2
          [⟨"tiger shark", 1⟩, ⟨"salmon", 1⟩, ⟨"umbrella", 0⟩,
            ⟨"beach towel", 0⟩, ⟨"trout", 1⟩] =
        interpretResults 2 [⟨"tiger shark", 1⟩, ⟨"salmon", 1⟩] ∧
      identifyFishResults
          [⟨"tiger shark", 1⟩, ⟨"salmon", 1⟩, ⟨"umbrella", 0⟩,
            ⟨"beach towel", 0⟩, ⟨"trout", 1⟩] =
        interpretResults 5
          [⟨"tiger shark", 1⟩, ⟨"salmon", 1⟩, ⟨"umbrella", 0⟩,
            ⟨"beach towel", 0⟩, ⟨"trout", 1⟩]) :=
  ⟨by decide,
    claim4_truncation 2
      [⟨"tiger shark", 1⟩, ⟨"salmon", 1⟩, ⟨"umbrella", 0⟩,
        ⟨"beach towel", 0⟩, ⟨"trout", 1⟩]
      [⟨"tiger shark", 1⟩, ⟨"salmon", 1⟩] (by decide)⟩

theorem recordToEntry_processEntry (e : ClassificationEntry) :
    recordToEntry (processEntry e) = e := rfl

/-- C9: feeding the interpreter its own output (labels and scores kept)
reproduces that output exactly, so in particular the same entries are
judged fish-relevant on the re-run. -/
theorem claim9_relevance_idempotent (result : List ClassificationEntry) :
    identifyFishResults ((identifyFishResults result).map recordToEntry) =
      identifyFishResults result ∧
    ((identifyFishResults
          ((identifyFishResults result).map recordToEntry)).map
        fun r => r.species.isSome) =
      ((identifyFishResults result).map fun r => r.species.isSome) := by
  have hfix : (identifyFishResults result).map recordToEntry =
      result.take 5 := by
    simp only [identifyFishResults, interpretResults, List.map_map]
    have : recordToEntry ∘ processEntry = id := funext recordToEntry_processEntry
    rw [this, List.map_id]
  have hmain : identifyFishResults
      ((identifyFishResults result).map recordToEntry) =
      identifyFishResults result := by
    rw [hfix]
    simp [identifyFishResults, interpretResults, List.take_take]
  exact ⟨hmain, by rw [hmain]⟩

/-- Counterexample to C7 as stated: at a score of exactly 0.4 the badge
is the low tier, not the medium tier — the code tests `score > 0.4`, so
0.4 itself falls through to low. -/
theorem claim7_badge_counterexample :
    badgeTier (2/5) = Tier.low ∧ Tier.low ≠ Tier.medium := by
  constructor
  · unfold badgeTier
    norm_num
  · decide

/-- C7 (amended): the badge tier is a function of the score alone, with
high iff score > 0.7, medium iff 0.4 < score ≤ 0.7, and low iff
score ≤ 0.4 (a score of exactly 0.4 is low). -/
theorem claim7_badge_tiers (s : ℚ) :
    (badgeTier s = Tier.high ↔ 7/10 < s) ∧
    (badgeTier s = Tier.medium ↔ 2/5 < s ∧ s ≤ 7/10) ∧
    (badgeTier s = Tier.low ↔ s ≤ 2/5) := by
  unfold badgeTier
  split_ifs with h1 h2 <;> refine ⟨?_, ?_, ?_⟩ <;>
    simp_all <;> linarith

/-- C8: a submitted file whose MIME type is not `image/*` is rejected:
the validation toast is shown, the classifier is not invoked, and the
stored image and results are unchanged. -/
theorem claim8_invalid_file_rejected (fileType fileContent : String)
    (st : ComponentState) (h : startsWith fileType "image/" = false) :
    handleImageUpload fileType fileContent st =
      (st, [Effect.toastError "Please upload a valid image file"]) ∧
    Effect.classifierInvoked ∉
      (handleImageUpload fileType fileContent st).2 := by
  simp [handleImageUpload, h]

/-- Witness for C8 on a concrete non-image file type. -/
theorem claim8_invalid_file_rejected_witness :
    startsWith "text/plain" "image/" = false ∧
    (handleImageUpload "text/plain" "data" ⟨some "old", false, []⟩ =
        (⟨some "old", false, []⟩,
          [Effect.toastError "Please upload a valid image file"]) ∧
      Effect.classifierInvoked ∉
        (handleImageUpload "text/plain" "data"
          ⟨some "old", false, []⟩).2) :=
  ⟨by decide,
    claim8_invalid_file_rejected "text/plain" "data"
      ⟨some "old", false, []⟩ (by decide)⟩

/-- C10: when the classifier pipeline creation or invocation fails,
`identifyFish` shows exactly one error notification and leaves the
stored results (and image) untouched; on every path through the
`try`/`finally` — success or failure — the busy flag ends up `false`. -/
theorem claim10_failure_handling
    (classify : Except Unit (List ClassificationEntry)) (err : Unit)
    (st : ComponentState) (h : st.image.isSome = true) :
    (identifyFish classify st).1.isLoading = false ∧
    (identifyFish (Except.error err) st).1.results = st.results ∧
    (identifyFish (Except.error err) st).1.image = st.image ∧
    ((identifyFish (Except.error err) st).2.filter isErrorToast).length
      = 1 := by
  obtain ⟨img, himg⟩ := Option.isSome_iff_exists.mp h
  cases classify <;>
    simp [identifyFish, himg, isErrorToast, List.filter]

/-- Witness for C10 at a concrete failing classifier call. -/
theorem claim10_failure_handling_witness :
    ((⟨some "img", true, []⟩ : ComponentState).image.isSome = true) ∧
    ((identifyFish (Except.error ()) ⟨some "img", true, []⟩).1.isLoading
        = false ∧
      (identifyFish (Except.error ())
          ⟨some "img", true, []⟩).1.results =
        (⟨some "img", true, []⟩ : ComponentState).results ∧
      (identifyFish (Except.error ())
          ⟨some "img", true, []⟩).1.image =
        (⟨some "img", true, []⟩ : ComponentState).image ∧
      ((identifyFish (Except.error ())
          ⟨some "img", true, []⟩).2.filter isErrorToast).length = 1) :=
  ⟨rfl,
    claim10_failure_handling (Except.error ()) ()
      ⟨some "img", true, []⟩ rfl⟩

/-- Counterexample to C2 as stated: the code splits on the space
character only, not on whitespace. The fish-relevant label
`"tuna\tfish"` (a tab between the words) has first whitespace-delimited
token `"tuna"`, but the derived genus is the whole label. -/
theorem claim2_counterexample :
    isFishRelated "tuna\tfish" = true ∧
    (processEntry ⟨"tuna\tfish", 1⟩).genus = some "tuna\tfish" ∧
    firstWhitespaceToken "tuna\tfish" = "tuna" ∧
    ("tuna\tfish" : String) ≠ "tuna" := by decide

/-- C2 (amended): for fish-relevant entries, tokens are obtained by
splitting the original label at each space character U+0020 (not at
arbitrary whitespace, and consecutive spaces yield empty tokens):
`genus` is the prefix before the first space, `species` is that prefix,
a space, and the segment between the first and second spaces when the
label contains a space, and the full label otherwise, and `commonName`
is the original label unmodified. -/
theorem claim2_field_derivation (e : ClassificationEntry)
    (h : isFishRelated e.label = true) :
    (processEntry e).commonName = some e.label ∧
    (processEntry e).genus =
      some ⟨e.label.toList.takeWhile fun c => c != ' '⟩ ∧
    (processEntry e).species = some (
      if ' ' ∈ e.label.toList then
        (⟨(e.label.toList.takeWhile fun c => c != ' ') ++ ' ' ::
          ((e.label.toList.dropWhile fun c => c != ' ').tail.takeWhile
            fun c => c != ' ')⟩ : String)
      else e.label) := by
  refine ⟨by simp [processEntry, h], ?_, ?_⟩
  · simp [processEntry, h, extractGenus_eq_headI, splitOnChar_headI]
  · simp only [processEntry, h, if_true]
    congr 1
    unfold extractSpecies
    by_cases hmem : ' ' ∈ e.label.toList
    · rw [splitOnChar_of_mem _ hmem]
      cases hw : splitOnChar ' '
          ((e.label.toList.dropWhile fun c => c != ' ').tail) with
      | nil => exact absurd hw (splitOnChar_ne_nil _ _)
      | cons t ts =>
        have ht := splitOnChar_headI ' '
          ((e.label.toList.dropWhile fun c => c != ' ').tail)
        rw [hw] at ht
        simp only [List.headI] at ht
        simp only [String.toList] at hmem
        simp [hmem, ht]
    · rw [splitOnChar_of_not_mem _ hmem]
      simp only [String.toList] at hmem
      simp [hmem]

/-- Witness for the amended C2 at the two-token label `"tiger shark"`. -/
theorem claim2_field_derivation_witness :
    isFishRelated
        (⟨"tiger shark", 1⟩ : ClassificationEntry).label = true ∧
    ((processEntry ⟨"tiger shark", 1⟩).commonName =
        some (⟨"tiger shark", 1⟩ : ClassificationEntry).label ∧
      (processEntry ⟨"tiger shark", 1⟩).genus =
        some ⟨(⟨"tiger shark", 1⟩ :
          ClassificationEntry).label.toList.takeWhile fun c => c != ' '⟩ ∧
      (processEntry ⟨"tiger shark", 1⟩).species = some (
        if ' ' ∈ (⟨"tiger shark", 1⟩ :
            ClassificationEntry).label.toList then
          (⟨((⟨"tiger shark", 1⟩ :
              ClassificationEntry).label.toList.takeWhile
                fun c => c != ' ') ++ ' ' ::
            (((⟨"tiger shark", 1⟩ :
              ClassificationEntry).label.toList.dropWhile
                fun c => c != ' ').tail.takeWhile
                  fun c => c != ' ')⟩ : String)
        else (⟨"tiger shark", 1⟩ : ClassificationEntry).label)) :=
  ⟨by decide, claim2_field_derivation ⟨"tiger shark", 1⟩ (by decide)⟩

end FishWhisperer
